import Mathlib

/-!
Verification of the SSE (Server-Sent Events) core of the repository:
the Express route handler for `GET /api/events` (server side) and the
React `ServerSentEventsDemo` component (client side).

Server side (route handler in `server/routes.ts`):
the handler writes a `connected` event, declares `let counter = 0`,
starts two intervals (`counterInterval` every 1s, `randomInterval`
every 2s) and registers a `close` handler that clears both intervals.
We embed one connection as a state machine: the state holds the
closure variable `counter`, the two interval handles (modelled as
active/cleared flags) and the ordered list of events written so far
with `res.write`.  The environment drives the machine with ticks of
the two timers (a `randomTick` carries the value that the platform
primitive `Math.random()` returned, a rational in `[0, 1)`) and with
the peer-close notification.
-/

/-- One framed SSE event as written by the server.  Each constructor
records the payload of the corresponding `res.write` pair in the
source: `connected` carries the `message` string, `counter` the
`count`, `random` the `number`. -/
inductive SseEvent where
  | connected (message : String)
  | counter (count : Nat)
  | random (number : Int)
deriving DecidableEq, Repr

/-- The JSON string literal `"s"` produced by `JSON.stringify` for the
strings used here (none of which needs escaping). -/
def jsonStr (s : String) : String := "\"" ++ s ++ "\""

/-- A one-field JSON object `{"k":v}` as `JSON.stringify` prints it. -/
def jsonObj (k v : String) : String :=
  "\x7b" ++ jsonStr k ++ ":" ++ v ++ "\x7d"

/-- The SSE event name tag, as written on the `event:` line. -/
def eventName : SseEvent → String
  | .connected _ => "connected"
  | .counter _ => "counter"
  | .random _ => "random"

/-- The JSON payload on the `data:` line: `JSON.stringify` of the
object literal the source builds for each event. -/
def eventData : SseEvent → String
  | .connected m => jsonObj "message" (jsonStr m)
  | .counter n => jsonObj "count" (toString n)
  | .random n => jsonObj "number" (toString n)

/-- The two `res.write` calls the source makes for one event:
`res.write('event: <name>\n')` then
`res.write('data: <json>\n\n')`. -/
def writeEvent (e : SseEvent) : List String :=
  ["event: " ++ eventName e ++ "\n", "data: " ++ eventData e ++ "\n\n"]

/-- Per-connection server state: the closure variable `let counter = 0`,
whether `counterInterval` and `randomInterval` are still scheduled
(`true` until `clearInterval`), and the events written to the response
stream so far, in write order. -/
structure Conn where
  counter : Nat
  counterInterval : Bool
  randomInterval : Bool
  sent : List SseEvent
deriving DecidableEq, Repr

/-- The message of the initial `connected` event in the source. -/
def connectedMessage : String := "Connected to event stream"

/-- The synchronous body of the route handler: write the `connected`
event, initialise `counter` to 0, schedule both intervals. -/
def openConn : Conn :=
  { counter := 0
    counterInterval := true
    randomInterval := true
    sent := [SseEvent.connected connectedMessage] }

/-- An occurrence the event loop can deliver to one connection:
a firing of `counterInterval`, a firing of `randomInterval` together
with the value `r` returned by `Math.random()` at that firing, or the
`req.on('close')` notification. -/
inductive ConnEvent where
  | counterTick
  | randomTick (r : ℚ)
  | close
deriving DecidableEq

/-- One step of the connection: the interval callbacks from the source
(`counter++` then write `counter` event; sample and write `random`
event), which only run while their interval is scheduled, and the
`close` handler, which clears both intervals.  `Math.floor(r * 100)`
is `⌊r * 100⌋`. -/
def step (c : Conn) (e : ConnEvent) : Conn :=
  match e with
  | ConnEvent.counterTick =>
      if c.counterInterval then
        { c with
          counter := c.counter + 1
          sent := c.sent ++ [SseEvent.counter (c.counter + 1)] }
      else c
  | ConnEvent.randomTick r =>
      if c.randomInterval then
        { c with sent := c.sent ++ [SseEvent.random ⌊r * 100⌋] }
      else c
  | ConnEvent.close =>
      { c with counterInterval := false, randomInterval := false }

/-- Run a connection from state `c` through a list of deliveries. -/
def stepList (c : Conn) (es : List ConnEvent) : Conn :=
  es.foldl step c

/-- A whole connection: open the stream, then deliver `es`. -/
def connRun (es : List ConnEvent) : Conn :=
  stepList openConn es

/-- The `counter` payloads in a connection state, in emission order. -/
def counterCounts (c : Conn) : List Nat :=
  c.sent.filterMap fun e =>
    match e with
    | SseEvent.counter n => some n
    | _ => none

/-- The sequence of strings passed to `res.write`, in order. -/
def resWrites (c : Conn) : List String :=
  c.sent.flatMap writeEvent

/-- Concatenation of a list of strings (the bytes of the response
body, since `res.write` appends each chunk to the open stream). -/
def concatAll : List String → String
  | [] => ""
  | s :: rest => s ++ concatAll rest

/-- The response body of a connection so far. -/
def resBody (c : Conn) : String := concatAll (resWrites c)

-- Basic lemmas about the machine.

lemma stepList_nil (c : Conn) : stepList c [] = c := rfl

lemma stepList_cons (c : Conn) (e : ConnEvent) (es : List ConnEvent) :
    stepList c (e :: es) = stepList (step c e) es := rfl

/-- After `close`, a step changes nothing: both interval flags are
false, so neither callback body runs, and clearing again is the
identity. -/
lemma step_of_cleared (c : Conn) (h1 : c.counterInterval = false)
    (h2 : c.randomInterval = false) (e : ConnEvent) : step c e = c := by
  cases c with
  | mk n ci ri s =>
    simp only at h1 h2
    subst h1; subst h2
    cases e <;> simp [step]

lemma stepList_of_cleared (c : Conn) (h1 : c.counterInterval = false)
    (h2 : c.randomInterval = false) (es : List ConnEvent) :
    stepList c es = c := by
  induction es with
  | nil => rfl
  | cons e es ih =>
      rw [stepList_cons, step_of_cleared c h1 h2]
      exact ih

/-- The range `List.range' s n` grows by one at the right end. -/
lemma range1_snoc (s n : Nat) :
    List.range' s n ++ [s + n] = List.range' s (n + 1) := by
  induction n generalizing s with
  | zero => simp [List.range']
  | succ n ih =>
      have h : s + (n + 1) = (s + 1) + n := by omega
      show (s :: List.range' (s + 1) n) ++ [s + (n + 1)] =
        s :: List.range' (s + 1) (n + 1)
      rw [List.cons_append, h, ih (s + 1)]

/-- Invariant of one step: the emitted `counter` payloads are exactly
`[1, …, counter]`. -/
lemma counterCounts_step (c : Conn) (e : ConnEvent)
    (h : counterCounts c = List.range' 1 c.counter) :
    counterCounts (step c e) = List.range' 1 (step c e).counter := by
  cases e with
  | counterTick =>
      by_cases hci : c.counterInterval
      · simp only [step, hci, if_true, counterCounts,
          List.filterMap_append] at *
        rw [h]
        have h2 := range1_snoc 1 c.counter
        rw [Nat.add_comm 1 c.counter] at h2
        simpa using h2
      · simp [step, hci, h]
  | randomTick r =>
      by_cases hri : c.randomInterval
      · simp only [step, hri, if_true, counterCounts,
          List.filterMap_append] at *
        rw [h]; simp
      · simp [step, hri, h]
  | close => simpa [step, counterCounts] using h

lemma counterCounts_stepList (c : Conn) (es : List ConnEvent)
    (h : counterCounts c = List.range' 1 c.counter) :
    counterCounts (stepList c es) = List.range' 1 (stepList c es).counter := by
  induction es generalizing c with
  | nil => simpa using h
  | cons e es ih =>
      rw [stepList_cons]
      exact ih _ (counterCounts_step c e h)

/-- Over a whole connection the `counter` payloads are `[1, …, n]`. -/
lemma counterCounts_connRun (es : List ConnEvent) :
    counterCounts (connRun es) = List.range' 1 (connRun es).counter :=
  counterCounts_stepList openConn es (by rfl)

/-- Restated with the list's own length as the bound. -/
lemma counterCounts_range (es : List ConnEvent) :
    counterCounts (connRun es) =
      List.range' 1 (counterCounts (connRun es)).length := by
  rw [counterCounts_connRun]
  simp

/-- A step only appends to `sent`. -/
lemma step_sent_mono (c : Conn) (e : ConnEvent) :
    ∃ t, (step c e).sent = c.sent ++ t := by
  cases e with
  | counterTick =>
      by_cases hci : c.counterInterval
      · exact ⟨[SseEvent.counter (c.counter + 1)], by simp [step, hci]⟩
      · exact ⟨[], by simp [step, hci]⟩
  | randomTick r =>
      by_cases hri : c.randomInterval
      · exact ⟨[SseEvent.random ⌊r * 100⌋], by simp [step, hri]⟩
      · exact ⟨[], by simp [step, hri]⟩
  | close => exact ⟨[], by simp [step]⟩

lemma stepList_sent_mono (c : Conn) (es : List ConnEvent) :
    ∃ t, (stepList c es).sent = c.sent ++ t := by
  induction es generalizing c with
  | nil => exact ⟨[], by simp [stepList_nil]⟩
  | cons e es ih =>
      obtain ⟨t1, h1⟩ := step_sent_mono c e
      obtain ⟨t2, h2⟩ := ih (step c e)
      exact ⟨t1 ++ t2, by rw [stepList_cons, h2, h1, List.append_assoc]⟩

/-!
Two concurrently open connections.  The server hosts each request
handler with its own closure (`counter`, the two interval handles),
so a world with two connections is just the product of two machines;
each delivery is tagged with the connection it belongs to.
-/

/-- The deliveries for connection 1 in an interleaved trace. -/
def conn1Events : List (ConnEvent ⊕ ConnEvent) → List ConnEvent
  | [] => []
  | Sum.inl e :: tr => e :: conn1Events tr
  | Sum.inr _ :: tr => conn1Events tr

/-- The deliveries for connection 2 in an interleaved trace. -/
def conn2Events : List (ConnEvent ⊕ ConnEvent) → List ConnEvent
  | [] => []
  | Sum.inl _ :: tr => conn2Events tr
  | Sum.inr e :: tr => e :: conn2Events tr

/-- One step of the two-connection world: a delivery tagged `inl` runs
connection 1's callback, `inr` runs connection 2's. -/
def step2 (p : Conn × Conn) (x : ConnEvent ⊕ ConnEvent) : Conn × Conn :=
  match x with
  | Sum.inl e => (step p.1 e, p.2)
  | Sum.inr e => (p.1, step p.2 e)

/-- Both connections open, then the interleaved trace is delivered. -/
def run2 (tr : List (ConnEvent ⊕ ConnEvent)) : Conn × Conn :=
  tr.foldl step2 (openConn, openConn)

lemma foldl_step2_proj (tr : List (ConnEvent ⊕ ConnEvent))
    (c1 c2 : Conn) :
    tr.foldl step2 (c1, c2) =
      (stepList c1 (conn1Events tr), stepList c2 (conn2Events tr)) := by
  induction tr generalizing c1 c2 with
  | nil => rfl
  | cons x tr ih =>
      cases x with
      | inl e =>
          simp only [List.foldl_cons, step2, conn1Events, conn2Events]
          rw [ih (step c1 e) c2, stepList_cons]
      | inr e =>
          simp only [List.foldl_cons, step2, conn1Events, conn2Events]
          rw [ih c1 (step c2 e), stepList_cons]

/-!
Bounds on `random` payloads.  `Math.random()` is the platform's
generator; its contract is a value in `[0, 1)`, carried on each
`randomTick`.
-/

lemma random_floor_bounds (r : ℚ) (h0 : 0 ≤ r) (h1 : r < 1) :
    0 ≤ ⌊r * 100⌋ ∧ ⌊r * 100⌋ < 100 := by
  constructor
  · exact Int.floor_nonneg.mpr (by positivity)
  · have : r * 100 < 100 := by nlinarith
    exact Int.floor_lt.mpr (by exact_mod_cast this)

/-- Every `random` payload in reach of a run whose samples are all in
`[0, 1)` is in `[0, 100)`. -/
lemma random_mem_stepList (es : List ConnEvent) (c : Conn)
    (hs : ∀ r, ConnEvent.randomTick r ∈ es → 0 ≤ r ∧ r < 1)
    (hc : ∀ n : Int, SseEvent.random n ∈ c.sent → 0 ≤ n ∧ n < 100) :
    ∀ n : Int, SseEvent.random n ∈ (stepList c es).sent →
      0 ≤ n ∧ n < 100 := by
  induction es generalizing c with
  | nil => simpa [stepList_nil] using hc
  | cons e es ih =>
      rw [stepList_cons]
      refine ih (step c e) (fun r hr => hs r (List.mem_cons_of_mem _ hr)) ?_
      intro n hn
      cases e with
      | counterTick =>
          by_cases hci : c.counterInterval
          · simp only [step, hci, if_true, List.mem_append,
              List.mem_singleton] at hn
            rcases hn with hn | hn
            · exact hc n hn
            · cases hn
          · simp only [step, hci] at hn
            exact hc n (by simpa using hn)
      | randomTick r =>
          by_cases hri : c.randomInterval
          · simp only [step, hri, if_true, List.mem_append,
              List.mem_singleton] at hn
            rcases hn with hn | hn
            · exact hc n hn
            · obtain ⟨hr0, hr1⟩ := hs r (List.mem_cons_self _ _)
              obtain ⟨hb0, hb1⟩ := random_floor_bounds r hr0 hr1
              injection hn with hn
              exact hn ▸ ⟨hb0, hb1⟩
          · simp only [step, hri] at hn
            exact hc n (by simpa using hn)
      | close =>
          simp only [step] at hn
          exact hc n hn

/-!
Body framing: concatenating the `res.write` chunks of one event gives
exactly the block `event: <name>\n` `data: <json>\n` blank line.
-/

lemma concatAll_append (a b : List String) :
    concatAll (a ++ b) = concatAll a ++ concatAll b := by
  induction a with
  | nil => simp [concatAll]
  | cons s a ih => simp [concatAll, ih, String.append_assoc]

lemma concatAll_writeEvent (e : SseEvent) :
    concatAll (writeEvent e) =
      "event: " ++ eventName e ++ "\n" ++
        ("data: " ++ eventData e ++ "\n\n") := by
  show ("event: " ++ eventName e ++ "\n") ++
      (("data: " ++ eventData e ++ "\n\n") ++ "") = _
  rw [String.append_empty]

lemma resBody_blocks (c : Conn) :
    resBody c =
      concatAll (c.sent.map fun e =>
        "event: " ++ eventName e ++ "\n" ++
          ("data: " ++ eventData e ++ "\n\n")) := by
  unfold resBody resWrites
  induction c.sent with
  | nil => rfl
  | cons e l ih =>
      rw [List.flatMap_cons, concatAll_append, concatAll_writeEvent, ih,
        List.map_cons]
      rfl

/-!
Client side (`client/src/pages/sse-demo.tsx`).  The component keeps
four `useState` cells (`connectionStatus`, `counter`, `randomNumber`,
`error`) and one `EventSource`.  Each registered callback is embedded
as a function on the client state.  `JSON.parse` is the platform's
parser: a listener receives its outcome on the event's data line,
`Except.ok` a parsed `EventData` on valid JSON, `Except.error` the
`SyntaxError` on a malformed line.  The listener bodies in the source
have no try/catch, so in the embedding a parse error propagates out
of the listener (the listener "throws").
-/

/-- The `EventData` interface of the source: all fields optional. -/
structure EventData where
  count : Option Int
  number : Option Int
  message : Option String
deriving DecidableEq, Repr

/-- The component's `useState` cells. -/
structure ViewState where
  connectionStatus : String
  counter : Int
  randomNumber : Int
  error : Option String
deriving DecidableEq, Repr

/-- Client state: the view cells plus whether `eventSource.close()`
has been called on the current `EventSource`. -/
structure ClientState where
  view : ViewState
  esClosed : Bool
deriving DecidableEq, Repr

/-- The initial state of the effect: the `useState` initial values,
and a freshly constructed (not closed) `EventSource`. -/
def initClient : ClientState :=
  { view :=
      { connectionStatus := "Disconnected"
        counter := 0
        randomNumber := 0
        error := none }
    esClosed := false }

/-- Handler `eventSource.onopen`: clear the error, set status
`Connected`. -/
def onopen (s : ClientState) : ClientState :=
  { s with view :=
      { s.view with error := none, connectionStatus := "Connected" } }

/-- Handler `eventSource.onerror`: surface a message, set the retrying status
(`console.error` is a log, not a state change); the handler does not
call `eventSource.close()`. -/
def onerror (s : ClientState) : ClientState :=
  { s with view :=
      { s.view with
        error := some "Connection error. Retrying..."
        connectionStatus := "Error - Retrying" } }

/-- Listener for `connected`: parse, then `console.log(data.message)`
— no state change.  A parse error propagates (no try/catch). -/
def connectedListener (parsed : Except String EventData)
    (s : ClientState) : Except String ClientState := do
  let _ ← parsed
  pure s

/-- Listener for `counter`: parse; if `data.count !== undefined`, set
the counter cell to it.  A parse error propagates (no try/catch). -/
def counterListener (parsed : Except String EventData)
    (s : ClientState) : Except String ClientState := do
  let d ← parsed
  match d.count with
  | some c => pure { s with view := { s.view with counter := c } }
  | none => pure s

/-- Listener for `random`: parse; if `data.number !== undefined`, set
the random cell to it.  A parse error propagates (no try/catch). -/
def randomListener (parsed : Except String EventData)
    (s : ClientState) : Except String ClientState := do
  let d ← parsed
  match d.number with
  | some n => pure { s with view := { s.view with randomNumber := n } }
  | none => pure s

/-- The `useEffect` cleanup: `eventSource.close()` and nothing else. -/
def cleanup (s : ClientState) : ClientState :=
  { s with esClosed := true }

/-!
The claims.
-/

/-- C1: on any connection the sequence of `counter` payloads is
exactly 1, 2, 3, …: the handler's counter starts at 0, is incremented
before each emission (so the first emitted count is 1), and each
successive payload is one greater than the previous — the payload
list is `[1, …, k]` for its own length `k`. -/
theorem counter_sequence_exact (es : List ConnEvent) :
    openConn.counter = 0 ∧
    counterCounts (connRun es) =
      List.range' 1 (counterCounts (connRun es)).length :=
  ⟨rfl, counterCounts_range es⟩

/-- C2: when the peer-close notification fires, the `close` handler
clears both of the connection's intervals, and from then on no
delivery (tick of either timer, or another close) changes the
connection state at all: no timer outlives the close event. -/
theorem close_cancels_both_intervals (c : Conn) (es : List ConnEvent) :
    (step c ConnEvent.close).counterInterval = false ∧
    (step c ConnEvent.close).randomInterval = false ∧
    stepList (step c ConnEvent.close) es = step c ConnEvent.close :=
  ⟨rfl, rfl, stepList_of_cleared _ rfl rfl es⟩

/-- C3: on any connection the first event written to the stream is the
`connected` event, with a non-empty `message`; every `counter` or
`random` event can only appear after it. -/
theorem connected_event_first (es : List ConnEvent) :
    (connRun es).sent.head? =
      some (SseEvent.connected connectedMessage) ∧
    connectedMessage ≠ "" := by
  constructor
  · obtain ⟨t, ht⟩ := stepList_sent_mono openConn es
    show (stepList openConn es).sent.head? = _
    rw [ht]
    rfl
  · decide

/-- C5: two concurrently open connections are fully independent: each
component of the product world is exactly the single-connection run on
its own deliveries (so neither connection's state, counter included,
depends on the other's trace), and each connection's `counter`
sequence is `[1, …, k]` from 1. -/
theorem connections_independent (tr : List (ConnEvent ⊕ ConnEvent)) :
    run2 tr = (connRun (conn1Events tr), connRun (conn2Events tr)) ∧
    counterCounts (run2 tr).1 =
      List.range' 1 (counterCounts (run2 tr).1).length ∧
    counterCounts (run2 tr).2 =
      List.range' 1 (counterCounts (run2 tr).2).length := by
  have hp : run2 tr =
      (connRun (conn1Events tr), connRun (conn2Events tr)) :=
    foldl_step2_proj tr openConn openConn
  refine ⟨hp, ?_, ?_⟩
  · rw [hp]; exact counterCounts_range _
  · rw [hp]; exact counterCounts_range _

/-- C6: when every `Math.random()` sample of the run is in `[0, 1)`
(the platform contract), every `random` payload is an integer `n` with
`0 ≤ n < 100`; the sample is taken freshly at each firing (each
`randomTick` carries its own sample). -/
theorem random_payload_in_range (es : List ConnEvent)
    (hs : ∀ r, ConnEvent.randomTick r ∈ es → 0 ≤ r ∧ r < 1) :
    ∀ n : Int, SseEvent.random n ∈ (connRun es).sent →
      0 ≤ n ∧ n < 100 :=
  random_mem_stepList es openConn hs
    (by intro n hn; simp [openConn] at hn)

/-- Witness for C6: a run with one `random` firing at sample 0 emits
payload 0, which is in range. -/
theorem random_payload_in_range_holds : (0 : Int) ≤ 0 ∧ (0 : Int) < 100 :=
  random_payload_in_range [ConnEvent.randomTick 0]
    (fun r hr => by
      simp only [List.mem_singleton, ConnEvent.randomTick.injEq] at hr
      subst hr
      norm_num)
    0
    (by simp [connRun, stepList, step, openConn])

/-- C7: the response body is exactly the concatenation, over the events
written, of the block `event: <name>` newline, `data: <json>` newline,
blank line; and every `data:` line is a single complete JSON object
(`JSON.stringify` of a one-field object literal). -/
theorem body_is_framed_blocks (es : List ConnEvent) :
    resBody (connRun es) =
      concatAll ((connRun es).sent.map fun e =>
        "event: " ++ eventName e ++ "\n" ++
          ("data: " ++ eventData e ++ "\n\n")) ∧
    ∀ e ∈ (connRun es).sent, ∃ k v, eventData e = jsonObj k v := by
  refine ⟨resBody_blocks _, ?_⟩
  intro e _
  cases e with
  | connected m => exact ⟨"message", jsonStr m, rfl⟩
  | counter n => exact ⟨"count", toString n, rfl⟩
  | random n => exact ⟨"number", toString n, rfl⟩

/-- Witness for C7: on the empty run, the one event sent (the
`connected` handshake) has a one-object JSON data line. -/
theorem body_is_framed_blocks_holds :
    ∃ k v, eventData (SseEvent.connected connectedMessage) = jsonObj k v :=
  (body_is_framed_blocks []).2 (SseEvent.connected connectedMessage)
    (by simp [connRun, stepList, openConn])

/-- C4 (failing input): a `counter` or `random` data line that is not
valid JSON makes `JSON.parse` throw, and the listener has no try/catch,
so the exception propagates out of the listener unhandled — contrary to
the requirement that one malformed frame must not break the handler. -/
theorem listener_throws_on_malformed_frame :
    counterListener
        (Except.error "SyntaxError: Unexpected token") initClient =
      Except.error "SyntaxError: Unexpected token" ∧
    randomListener
        (Except.error "SyntaxError: Unexpected token") initClient =
      Except.error "SyntaxError: Unexpected token" :=
  ⟨rfl, rfl⟩

/-- C8: the transport-error handler sets the status to the retrying
state and records a non-empty human-readable message; it leaves the
close flag of the `EventSource` (and every other cell) untouched, so
the native reconnection logic is free to retry. -/
theorem onerror_sets_status_keeps_connection (s : ClientState) :
    (onerror s).view.connectionStatus = "Error - Retrying" ∧
    (onerror s).view.error = some "Connection error. Retrying..." ∧
    "Connection error. Retrying..." ≠ "" ∧
    (onerror s).esClosed = s.esClosed ∧
    (onerror s).view.counter = s.view.counter ∧
    (onerror s).view.randomNumber = s.view.randomNumber :=
  ⟨rfl, rfl, by decide, rfl, rfl, rfl⟩

/-- C9: the effect's cleanup closes the `EventSource` unconditionally
and does nothing else: the whole resulting state is the old one with
only the closed flag set, so the view cells are untouched. -/
theorem cleanup_only_closes (s : ClientState) :
    cleanup s = { s with esClosed := true } ∧
    (cleanup s).esClosed = true ∧
    (cleanup s).view = s.view :=
  ⟨rfl, rfl, rfl⟩

/-- C10: on a parsed payload, each listener updates only its own cell:
the `connected` listener changes nothing; the `counter` listener sets
only `counter`, and to the old value when `count` is undefined; the
`random` listener sets only `randomNumber`, and to the old value when
`number` is undefined; in particular a payload with the relevant field
undefined leaves the state exactly as it was. -/
theorem listeners_update_only_own_cell (d : EventData) (s : ClientState) :
    connectedListener (Except.ok d) s = Except.ok s ∧
    counterListener (Except.ok d) s =
      Except.ok { s with view :=
        { s.view with counter := d.count.getD s.view.counter } } ∧
    randomListener (Except.ok d) s =
      Except.ok { s with view :=
        { s.view with randomNumber := d.number.getD s.view.randomNumber } } ∧
    counterListener (Except.ok { d with count := none }) s =
      Except.ok s ∧
    randomListener (Except.ok { d with number := none }) s =
      Except.ok s := by
  refine ⟨rfl, ?_, ?_, rfl, rfl⟩
  · have hred : counterListener (Except.ok d) s =
        (match d.count with
          | some c =>
              Except.ok { s with view := { s.view with counter := c } }
          | none => Except.ok s) := rfl
    rw [hred]
    cases d.count <;> rfl
  · have hred : randomListener (Except.ok d) s =
        (match d.number with
          | some n =>
              Except.ok { s with view := { s.view with randomNumber := n } }
          | none => Except.ok s) := rfl
    rw [hred]
    cases d.number <;> rfl
